import Mathlib

/-!
Shallow embedding of the conversation / persona persistence layer and the
prompt-assembly logic of `src/app.py` (a single-file Streamlit chat UI).

The on-disk conversations directory is modelled as an association list from
file name to file content; a file content is either a well-formed
conversation document (the only shape the application ever writes) or
unparsable JSON.  Time stamps and identifiers are opaque strings passed in
explicitly (`datetime.now().isoformat()` and `uuid.uuid4()` in the source).

Python string primitives used by the source (`str.strip`, slicing,
`str.endswith`, lexicographic `<`) are modelled by structurally recursive
functions over the character list of a `String`, so that every definition
evaluates inside the kernel.
-/

namespace ChatApp

/-- A chat message: a JSON object `{"role": ..., "content": ...}`.  The source
stores the role as a plain string (`"user"` or `"assistant"`). -/
structure Message where
  role : String
  content : String
deriving DecidableEq, Repr

/-- A conversation document, as written by `save_conversation` and created by
`load_conversation` / `create_new_conversation` in `src/app.py`. -/
structure Conversation where
  id : String
  name : String
  created_at : String
  updated_at : String
  messages : List Message
  system_prompt : String
deriving DecidableEq, Repr

/-- Content of one file in the conversations directory: either a parsable
conversation document or unparsable JSON (on which `json.load` raises). -/
inductive FileData where
  | doc (c : Conversation)
  | corrupt
deriving DecidableEq, Repr

/-- The conversations directory: file name (for example `"<id>.json"`) paired
with the file's content, in directory-listing order. -/
abbrev FS := List (String × FileData)

/-- Reading a file: the first entry with the given name, if any. -/
def fsRead (fs : FS) (fname : String) : Option FileData :=
  (fs.find? (fun p => p.1 == fname)).map (fun p => p.2)

/-- Writing a file with `open(path, "w")`: replaces any existing entry. -/
def fsWrite (fs : FS) (fname : String) (d : FileData) : FS :=
  (fname, d) :: fs.filter (fun p => !(p.1 == fname))

/-- `os.remove`: drops the entry with the given name (no-op when absent). -/
def fsRemove (fs : FS) (fname : String) : FS :=
  fs.filter (fun p => !(p.1 == fname))

/-- Model of Python `str.strip()`: drop leading and trailing whitespace. -/
def pyStrip (s : String) : String :=
  ⟨((s.data.dropWhile Char.isWhitespace).reverse.dropWhile Char.isWhitespace).reverse⟩

/-- Python truthiness of `s.strip()` negated: the string is empty or
whitespace-only. -/
def isBlank (s : String) : Bool :=
  pyStrip s == ""

/-- Model of Python slicing `s[:n]` (by characters). -/
def pySlice (s : String) (n : Nat) : String :=
  ⟨s.data.take n⟩

/-- Model of Python `s.endswith(suffix)`. -/
def pyEndsWith (s suffix : String) : Bool :=
  suffix.data.isSuffixOf s.data

/-- Model of Python slicing `s[:-5]`, used to strip a `.json` extension. -/
def dropDotJson (s : String) : String :=
  ⟨s.data.take (s.data.length - 5)⟩

/-- Lexicographic character-list comparison, as Python compares strings. -/
def pyLtChars : List Char → List Char → Bool
  | [], [] => false
  | [], _ :: _ => true
  | _ :: _, [] => false
  | a :: as, b :: bs => if a < b then true else if b < a then false else pyLtChars as bs

/-- Model of Python `a < b` on strings. -/
def pyLt (a b : String) : Bool :=
  pyLtChars a.data b.data

/-- File path of a conversation id: `get_conversation_file` in the source
(`os.path.join(CONVERSATIONS_DIR, f"{conversation_id}.json")`; the constant
directory prefix is dropped in the model). -/
def get_conversation_file (conversation_id : String) : String :=
  conversation_id ++ ".json"

/-- The fresh default document `load_conversation` builds when no file
exists for the id (`datetime.now().isoformat()` is the `now` argument). -/
def default_conversation (conversation_id now : String) : Conversation :=
  { id := conversation_id, name := "New Conversation", created_at := now,
    updated_at := now, messages := [], system_prompt := "" }

/-- Embeds `load_conversation`: parse the file when it exists (`json.load`
raises on unparsable content, modelled by `Except.error`), otherwise return
the fresh default document carrying the requested id. -/
def load_conversation (fs : FS) (conversation_id now : String) :
    Except Unit Conversation :=
  match fsRead fs (get_conversation_file conversation_id) with
  | some (FileData.doc c) => Except.ok c
  | some FileData.corrupt => Except.error ()
  | none => Except.ok (default_conversation conversation_id now)

/-- Embeds `is_conversation_empty`: no messages and a blank
(empty-after-strip) system prompt. -/
def is_conversation_empty (c : Conversation) : Bool :=
  c.messages.length == 0 && isBlank c.system_prompt

/-- Embeds `save_conversation`: skip (returning `false`) when not forced and
the conversation is empty; otherwise stamp `updated_at := now`, write the
full document and return `true`.  The returned `Conversation` is the
(possibly mutated) in-memory record. -/
def save_conversation (fs : FS) (c : Conversation) (force_save : Bool)
    (now : String) : FS × Conversation × Bool :=
  if !force_save && is_conversation_empty c then (fs, c, false)
  else
    let c2 := { c with updated_at := now }
    (fsWrite fs (get_conversation_file c2.id) (FileData.doc c2), c2, true)

/-- Embeds `clear_conversation_if_empty`: delete the file (if any) and
report `true` when the conversation is empty, otherwise force-save and
report `false`. -/
def clear_conversation_if_empty (fs : FS) (c : Conversation) (now : String) :
    FS × Conversation × Bool :=
  if is_conversation_empty c then
    (fsRemove fs (get_conversation_file c.id), c, true)
  else
    let r := save_conversation fs c true now
    (r.1, r.2.1, false)

/-- Embeds `delete_conversation`. -/
def delete_conversation (fs : FS) (conversation_id : String) : FS :=
  fsRemove fs (get_conversation_file conversation_id)

/-- One summary row produced by `list_conversations`. -/
structure ConvSummary where
  id : String
  name : String
  updated_at : String
  message_count : Nat
  system_prompt : String
deriving DecidableEq, Repr

/-- The summary `list_conversations` builds for one document:
`system_prompt[:50] + ("..." if len(system_prompt) > 50 else "")`. -/
def summary_of (conversation_id : String) (c : Conversation) : ConvSummary :=
  { id := conversation_id, name := c.name, updated_at := c.updated_at,
    message_count := c.messages.length,
    system_prompt := pySlice c.system_prompt 50 ++
      (if 50 < c.system_prompt.data.length then "..." else "") }

/-- The enumeration pass of `list_conversations`: for every directory entry
ending in `.json`, strip the extension, reload the document by id, and keep
its summary; a document whose load raises is skipped (`except ... continue`). -/
def list_entries (fs : FS) (now : String) : List ConvSummary :=
  fs.filterMap (fun e =>
    if pyEndsWith e.1 ".json" then
      match load_conversation fs (dropDotJson e.1) now with
      | Except.ok c => some (summary_of (dropDotJson e.1) c)
      | Except.error _ => none
    else none)

/-- Insertion of one summary into a list already sorted by `updated_at`
descending, placing it after all entries with an equal or larger key
(matching the stability of Python's `list.sort`). -/
def insertDesc (s : ConvSummary) : List ConvSummary → List ConvSummary
  | [] => [s]
  | t :: ts =>
    if pyLt t.updated_at s.updated_at then s :: t :: ts else t :: insertDesc s ts

/-- Stable sort by `updated_at` descending
(`conversations.sort(key=lambda x: x["updated_at"], reverse=True)`). -/
def sortByUpdatedDesc (l : List ConvSummary) : List ConvSummary :=
  l.foldl (fun acc s => insertDesc s acc) []

/-- Embeds `list_conversations`. -/
def list_conversations (fs : FS) (now : String) : List ConvSummary :=
  sortByUpdatedDesc (list_entries fs now)

/-- Checks that consecutive summaries are in weakly descending `updated_at`
order. -/
def sortedDesc : List ConvSummary → Bool
  | [] => true
  | [_] => true
  | a :: b :: t => !(pyLt a.updated_at b.updated_at) && sortedDesc (b :: t)

/-- Raw content of the legacy single-history file `chat_history.json`:
either the old format (a bare list of messages) or the newer
`{"messages": ..., "system_prompt": ...}` object. -/
inductive LegacyRaw where
  | bare (msgs : List Message)
  | full (msgs : List Message) (system_prompt : String)
deriving DecidableEq, Repr

/-- The normalized result of `load_history`. -/
structure HistoryDoc where
  messages : List Message
  system_prompt : String
deriving DecidableEq, Repr

/-- Embeds `load_history`: absent file yields the empty document, a bare
list gains an empty system prompt. -/
def load_history : Option LegacyRaw → HistoryDoc
  | some (LegacyRaw.bare msgs) => { messages := msgs, system_prompt := "" }
  | some (LegacyRaw.full msgs sp) => { messages := msgs, system_prompt := sp }
  | none => { messages := [], system_prompt := "" }

/-- Combined application file state relevant to legacy migration: the legacy
history file (`none` when absent) and the conversations directory. -/
structure AppFS where
  history : Option LegacyRaw
  convs : FS
deriving DecidableEq, Repr

/-- Embeds `migrate_old_history`: when the legacy file exists and its loaded
document is non-empty (a non-empty message list or a non-empty system-prompt
string, Python truthiness), build a conversation with a fresh id and name
`"Migrated Conversation"`, force-save it, reset the legacy file to its empty
form (`save_history({"messages": [], "system_prompt": ""})`) and return the
new id; otherwise change nothing and return `none`. -/
def migrate_old_history (s : AppFS) (freshId now : String) :
    AppFS × Option String :=
  match s.history with
  | none => (s, none)
  | some raw =>
    let old := load_history (some raw)
    if !old.messages.isEmpty || !(old.system_prompt == "") then
      let conv : Conversation :=
        { id := freshId, name := "Migrated Conversation", created_at := now,
          updated_at := now, messages := old.messages,
          system_prompt := old.system_prompt }
      let saved := save_conversation s.convs conv true now
      ({ history := some (LegacyRaw.full [] ""), convs := saved.1 }, some freshId)
    else (s, none)

/-- The fixed builtin persona table `PREDEFINED_PERSONAS` of the source, as
an association list in declaration order. -/
def PREDEFINED_PERSONAS : List (String × String) :=
  [("Default", ""),
   ("Helpful Assistant", "You are a helpful, harmless, and honest AI assistant. Always be polite and provide accurate information."),
   ("Code Expert", "You are an expert programmer and software engineer. Provide clear, well-commented code examples and technical explanations."),
   ("Creative Writer", "You are a creative writing assistant. Help with storytelling, character development, and creative expression."),
   ("Teacher", "You are a patient and encouraging teacher. Explain concepts clearly with examples and check for understanding."),
   ("Scientist", "You are a knowledgeable scientist. Provide evidence-based explanations and encourage scientific thinking."),
   ("Philosopher", "You are a thoughtful philosopher. Explore deep questions about existence, ethics, and meaning."),
   ("Comedian", "You are a witty comedian. Be humorous while still being helpful and appropriate."),
   ("Professional", "You are a professional business assistant. Be formal, efficient, and focused on practical solutions.")]

/-- Content of the custom-persona file: a parsable JSON mapping or
unparsable content. -/
inductive PersonaData where
  | good (m : List (String × String))
  | corrupt
deriving DecidableEq, Repr

/-- Embeds `load_custom_personas`: absent or unparsable file yields the
empty mapping (the read is wrapped in a catch-all `except`). -/
def load_custom_personas : Option PersonaData → List (String × String)
  | some (PersonaData.good m) => m
  | some PersonaData.corrupt => []
  | none => []

/-- Python `dict` lookup on the association-list model. -/
def dictLookup (m : List (String × String)) (k : String) : Option String :=
  (m.find? (fun p => p.1 == k)).map (fun p => p.2)

/-- Python `dict[k] = v`: replace in place when the key exists, else append
(insertion order is preserved). -/
def dictInsert (m : List (String × String)) (k v : String) :
    List (String × String) :=
  if (m.find? (fun p => p.1 == k)).isSome then
    m.map (fun p => if p.1 == k then (k, v) else p)
  else m ++ [(k, v)]

/-- Python `del dict[k]`. -/
def dictErase (m : List (String × String)) (k : String) :
    List (String × String) :=
  m.filter (fun p => !(p.1 == k))

/-- Embeds `add_custom_persona`: read-modify-write of the custom-persona
file, with no validation of its own. -/
def add_custom_persona (pf : Option PersonaData) (name prompt : String) :
    Option PersonaData :=
  some (PersonaData.good (dictInsert (load_custom_personas pf) name prompt))

/-- Embeds `delete_custom_persona`: rewrite the file without the entry when
the name is present, otherwise leave the file completely untouched. -/
def delete_custom_persona (pf : Option PersonaData) (name : String) :
    Option PersonaData :=
  let m := load_custom_personas pf
  if (m.find? (fun p => p.1 == name)).isSome then
    some (PersonaData.good (dictErase m name))
  else pf

/-- Embeds `get_all_personas` (first component): the builtin table updated
with every custom entry (`all_personas.update(custom_personas)`). -/
def get_all_personas (pf : Option PersonaData) : List (String × String) :=
  (load_custom_personas pf).foldl (fun acc p => dictInsert acc p.1 p.2)
    PREDEFINED_PERSONAS

/-- Embeds the "Save Current" persona handler (the module-level button
logic): reject when the name strips to blank, when the active system prompt
strips to blank, or when the raw name is a key of `PREDEFINED_PERSONAS`;
otherwise call `add_custom_persona` with the stripped name.  Returns the new
persona-file state and the error message shown, if any. -/
def save_persona_action (pf : Option PersonaData)
    (new_persona_name system_prompt : String) :
    Option PersonaData × Option String :=
  if !(isBlank new_persona_name) && !(isBlank system_prompt) then
    if (PREDEFINED_PERSONAS.find? (fun p => p.1 == new_persona_name)).isSome then
      (pf, some "Cannot overwrite predefined personas!")
    else (add_custom_persona pf (pyStrip new_persona_name) system_prompt, none)
  else if isBlank new_persona_name then (pf, some "Please enter a persona name!")
  else (pf, some "No system prompt to save!")

/-- One `User:`/`Assistant:` line of the ollama history replay. -/
def roleLine (msg : Message) : String :=
  if msg.role == "user" then "User: " ++ msg.content ++ "\n"
  else "Assistant: " ++ msg.content ++ "\n"

/-- Embeds the ollama prompt-assembly loop: optional labeled system-prompt
preamble with a blank separator (emitted only for a truthy, that is
non-empty, system prompt), then every history message in order. -/
def ollama_prompt (system_prompt : String) (messages : List Message) : String :=
  let p := if system_prompt == "" then "" else "System: " ++ system_prompt ++ "\n\n"
  messages.foldl (fun acc msg =>
    if msg.role == "user" then acc ++ ("User: " ++ msg.content ++ "\n")
    else acc ++ ("Assistant: " ++ msg.content ++ "\n")) p

/-- Embeds the input construction of `hf_infer`: built from the current user
input and the system prompt only. -/
def hf_full_input (user_input system_prompt : String) : String :=
  if system_prompt == "" then user_input
  else "System: " ++ system_prompt ++ "\nUser: " ++ user_input ++ "\nAssistant:"

/-- Spec-shaped history replay: every message in order as its labeled line.
Used to compare the assembly loops against the specification's description. -/
def replay : List Message → String
  | [] => ""
  | msg :: rest => roleLine msg ++ replay rest

/-- Reading back the file just written yields exactly the written content. -/
theorem fsRead_fsWrite_self (fs : FS) (k : String) (d : FileData) :
    fsRead (fsWrite fs k d) k = some d := by
  simp [fsRead, fsWrite]

/-- Reading the file just removed yields nothing. -/
theorem fsRead_fsRemove_self (fs : FS) (k : String) :
    fsRead (fsRemove fs k) k = none := by
  have h : (fsRemove fs k).find? (fun p => p.1 == k) = none := by
    rw [List.find?_eq_none]
    intro x hx
    simp only [fsRemove, List.mem_filter] at hx
    simpa using hx.2
  simp [fsRead, h]

/-- C1: a conversation with zero messages and a blank (empty or
whitespace-only) system prompt is not written by `save_conversation` without
`force_save`: the call returns `false` and the directory — in particular the
file of `c.id` — is byte-for-byte unchanged. -/
theorem save_skips_empty_conversation (fs : FS) (c : Conversation)
    (now : String) (hmsgs : c.messages = [])
    (hsp : isBlank c.system_prompt = true) :
    save_conversation fs c false now = (fs, c, false) := by
  unfold save_conversation
  simp [is_conversation_empty, hmsgs, hsp]

/-- Witness for C1 at a concrete empty conversation with a whitespace-only
system prompt. -/
theorem save_skips_empty_conversation_witness :
    save_conversation [] ⟨"a1", "New Conversation", "t0", "t0", [], " "⟩ false "t1"
      = ([], ⟨"a1", "New Conversation", "t0", "t0", [], " "⟩, false) :=
  save_skips_empty_conversation [] ⟨"a1", "New Conversation", "t0", "t0", [], " "⟩
    "t1" rfl (by decide)

/-- C2: saving a conversation with at least one message (without force)
returns `true`, and loading its id afterwards returns the very record saved:
every field of `c` unchanged except `updated_at`, which now carries the save
time. -/
theorem save_then_load_roundtrip (fs : FS) (c : Conversation)
    (now now2 : String) (hmsgs : c.messages ≠ []) :
    (save_conversation fs c false now).2.2 = true ∧
    load_conversation (save_conversation fs c false now).1 c.id now2
      = Except.ok { c with updated_at := now } := by
  have hempty : is_conversation_empty c = false := by
    unfold is_conversation_empty
    cases hm : c.messages with
    | nil => exact absurd hm hmsgs
    | cons a l => simp [hm]
  unfold save_conversation
  simp [hempty, load_conversation, fsRead_fsWrite_self]

/-- Witness for C2 at a concrete one-message conversation. -/
theorem save_then_load_roundtrip_witness :
    (save_conversation [] ⟨"a1", "n", "t0", "t0", [⟨"user", "hi"⟩], ""⟩ false "t1").2.2 = true ∧
    load_conversation
      (save_conversation [] ⟨"a1", "n", "t0", "t0", [⟨"user", "hi"⟩], ""⟩ false "t1").1
      "a1" "t2"
      = Except.ok ⟨"a1", "n", "t0", "t1", [⟨"user", "hi"⟩], ""⟩ :=
  save_then_load_roundtrip [] ⟨"a1", "n", "t0", "t0", [⟨"user", "hi"⟩], ""⟩ "t1" "t2"
    (by decide)

/-- C10: whenever `save_conversation` returns `false` it has skipped the
write entirely: the directory is unchanged and the in-memory record is
returned as it came in — in particular `updated_at` is not restamped.
`updated_at` is mutated only on the path that actually writes the file. -/
theorem save_false_means_no_effect (fs : FS) (c : Conversation)
    (force_save : Bool) (now : String)
    (h : (save_conversation fs c force_save now).2.2 = false) :
    save_conversation fs c force_save now = (fs, c, false) := by
  unfold save_conversation at h ⊢
  by_cases hc : (!force_save && is_conversation_empty c) = true
  · simp [hc]
  · simp [hc] at h

/-- Witness for C10: a concrete skipped save changes nothing. -/
theorem save_false_means_no_effect_witness :
    save_conversation [] ⟨"a1", "n", "t0", "t0", [], ""⟩ false "t1"
      = ([], ⟨"a1", "n", "t0", "t0", [], ""⟩, false) :=
  save_false_means_no_effect [] ⟨"a1", "n", "t0", "t0", [], ""⟩ false "t1" (by decide)

/-- C7: `clear_conversation_if_empty` deletes the document and reports
`true` when the conversation is empty — after which loading that id yields
the fresh default conversation carrying the id — and otherwise force-saves
(stamping `updated_at`) and reports `false`. -/
theorem clear_if_empty_spec (fs : FS) (c : Conversation) (now now2 : String) :
    (is_conversation_empty c = true →
      clear_conversation_if_empty fs c now
        = (fsRemove fs (get_conversation_file c.id), c, true) ∧
      load_conversation (clear_conversation_if_empty fs c now).1 c.id now2
        = Except.ok (default_conversation c.id now2)) ∧
    (is_conversation_empty c = false →
      clear_conversation_if_empty fs c now
        = (fsWrite fs (get_conversation_file c.id)
            (FileData.doc { c with updated_at := now }),
           { c with updated_at := now }, false)) := by
  constructor
  · intro h
    unfold clear_conversation_if_empty
    simp [h, load_conversation, fsRead_fsRemove_self]
  · intro h
    unfold clear_conversation_if_empty save_conversation
    simp [h]

/-- Witness for C7: deleting branch on a concrete emptied conversation whose
file exists, then a fresh-default load; force-save branch on a concrete
non-empty conversation. -/
theorem clear_if_empty_spec_witness :
    load_conversation
      (clear_conversation_if_empty
        [("a1.json", FileData.doc ⟨"a1", "n", "t0", "t0", [⟨"user", "hi"⟩], ""⟩)]
        ⟨"a1", "n", "t0", "t0", [], ""⟩ "t1").1 "a1" "t2"
      = Except.ok (default_conversation "a1" "t2") ∧
    clear_conversation_if_empty [] ⟨"a2", "n", "t0", "t0", [⟨"user", "hi"⟩], ""⟩ "t1"
      = ([("a2.json", FileData.doc ⟨"a2", "n", "t0", "t1", [⟨"user", "hi"⟩], ""⟩)],
         ⟨"a2", "n", "t0", "t1", [⟨"user", "hi"⟩], ""⟩, false) :=
  ⟨((clear_if_empty_spec
      [("a1.json", FileData.doc ⟨"a1", "n", "t0", "t0", [⟨"user", "hi"⟩], ""⟩)]
      ⟨"a1", "n", "t0", "t0", [], ""⟩ "t1" "t2").1 (by decide)).2,
   (clear_if_empty_spec [] ⟨"a2", "n", "t0", "t0", [⟨"user", "hi"⟩], ""⟩ "t1" "t2").2
     (by decide)⟩

/-- C4 counterexample: with an existing but unparsable document on disk,
`load_conversation` propagates the parse error; it does not fall back to the
fresh empty default conversation the claim promises. -/
theorem load_corrupt_document_cex :
    load_conversation [("x.json", FileData.corrupt)] "x" "t0" = Except.error () ∧
    load_conversation [("x.json", FileData.corrupt)] "x" "t0"
      ≠ Except.ok (default_conversation "x" "t0") := by
  constructor
  · rfl
  · intro h
    exact Except.noConfusion h

/-- C4 amended: `load_conversation` falls back to the fresh empty default
conversation only when no document exists for the id; an existing but
unparsable document makes the load raise (the `json.load` error propagates,
there is no fallback). -/
theorem load_fallback_only_when_file_absent (fs : FS)
    (conversation_id now : String) :
    (fsRead fs (get_conversation_file conversation_id) = some FileData.corrupt →
      load_conversation fs conversation_id now = Except.error ()) ∧
    (fsRead fs (get_conversation_file conversation_id) = none →
      load_conversation fs conversation_id now
        = Except.ok (default_conversation conversation_id now)) := by
  constructor <;> intro h <;> unfold load_conversation <;> rw [h]

/-- Witness for the amended C4: both branches at concrete stores. -/
theorem load_fallback_only_when_file_absent_witness :
    load_conversation [("x.json", FileData.corrupt)] "x" "t" = Except.error () ∧
    load_conversation [] "y" "t" = Except.ok (default_conversation "y" "t") :=
  ⟨(load_fallback_only_when_file_absent [("x.json", FileData.corrupt)] "x" "t").1
     (by decide),
   (load_fallback_only_when_file_absent [] "y" "t").2 (by decide)⟩

/-- The ollama assembly loop, run from any accumulator, appends exactly the
labeled replay of the message list. -/
theorem ollama_foldl_eq (messages : List Message) (acc : String) :
    messages.foldl (fun acc msg =>
      if msg.role == "user" then acc ++ ("User: " ++ msg.content ++ "\n")
      else acc ++ ("Assistant: " ++ msg.content ++ "\n")) acc
      = acc ++ replay messages := by
  induction messages generalizing acc with
  | nil => simp [replay]
  | cons m t ih =>
    simp only [List.foldl_cons, replay]
    rw [ih]
    by_cases h : (m.role == "user") = true
    · simp [roleLine, h, String.append_assoc]
    · simp [roleLine, h, String.append_assoc]

/-- Replay of a concatenated history is the concatenation of the replays. -/
theorem replay_append (l1 l2 : List Message) :
    replay (l1 ++ l2) = replay l1 ++ replay l2 := by
  induction l1 with
  | nil => simp [replay]
  | cons m t ih => simp [replay, ih, String.append_assoc]

/-- C5 counterexample: the claim quantifies over every backend type, but the
HF-hub backend input construction (`hf_infer`) is built from the current
user input alone: for the history `[user "a", user "b"]` (current turn "b",
empty system prompt) its assembled text is just `"b"`, and the earlier
history message content `"a"` does not occur in it at all — the ollama
replay of the same history does contain it.  So the history is not replayed
for every backend, and the current turn is special-cased. -/
theorem hf_assembly_ignores_history_cex :
    hf_full_input "b" "" = "b" ∧
    ¬ ('a' ∈ (hf_full_input "b" "").data) ∧
    'a' ∈ (ollama_prompt "" [⟨"user", "a"⟩, ⟨"user", "b"⟩]).data :=
  ⟨by decide, by decide, by decide⟩

/-- C5 amended: the assembly properties hold for the ollama backend, which
is a deterministic function of `(system_prompt, messages)`: a non-empty
(truthy) system prompt is emitted as a `System:`-labeled preamble followed
by a blank separator line, an empty system prompt emits no preamble at all,
every history message is emitted in order as its `User:`/`Assistant:`
labeled line, and a newly appended last message is emitted exactly as the
final replay line, never special-cased.  (The HF-hub backend instead
assembles from the current user input and system prompt only.) -/
theorem ollama_assembly_structure (system_prompt : String)
    (messages : List Message) (msg : Message) :
    ollama_prompt system_prompt messages
      = (if system_prompt == "" then ""
         else "System: " ++ system_prompt ++ "\n\n") ++ replay messages ∧
    ollama_prompt "" messages = replay messages ∧
    ollama_prompt system_prompt (messages ++ [msg])
      = ollama_prompt system_prompt messages ++ roleLine msg := by
  refine ⟨?_, ?_, ?_⟩
  · unfold ollama_prompt
    rw [ollama_foldl_eq]
  · unfold ollama_prompt
    rw [ollama_foldl_eq]
    simp [String.empty_append]
  · unfold ollama_prompt
    rw [ollama_foldl_eq, ollama_foldl_eq, replay_append]
    simp [replay, String.append_empty, String.append_assoc]

/-- C6: migrating a non-empty legacy document (Python truthiness: a
non-empty message list or a non-empty system-prompt string) creates exactly
one migrated conversation — messages and system prompt copied verbatim,
the fresh id, name `"Migrated Conversation"` — and resets the legacy
document to its empty form; a second run, against any conversations
directory and with any fresh id, finds the emptied legacy document and is a
complete no-op, so two consecutive runs yield one migrated conversation,
not two. -/
theorem migration_idempotent (raw : LegacyRaw) (convs convs2 : FS)
    (freshId now freshId2 now2 : String)
    (hne : (!(load_history (some raw)).messages.isEmpty
            || !((load_history (some raw)).system_prompt == "")) = true) :
    migrate_old_history ⟨some raw, convs⟩ freshId now
      = (⟨some (LegacyRaw.full [] ""),
          fsWrite convs (get_conversation_file freshId)
            (FileData.doc
              ⟨freshId, "Migrated Conversation", now, now,
               (load_history (some raw)).messages,
               (load_history (some raw)).system_prompt⟩)⟩,
         some freshId) ∧
    migrate_old_history ⟨some (LegacyRaw.full [] ""), convs2⟩ freshId2 now2
      = (⟨some (LegacyRaw.full [] ""), convs2⟩, none) := by
  constructor
  · unfold migrate_old_history
    simp only [hne, if_true, save_conversation]
    simp
  · unfold migrate_old_history
    simp [load_history]

/-- Witness for C6: a concrete legacy document with one message, migrated
once and then re-migrated with no effect. -/
theorem migration_idempotent_witness :
    migrate_old_history ⟨some (LegacyRaw.full [⟨"user", "m"⟩] "sp"), []⟩ "id1" "t1"
      = (⟨some (LegacyRaw.full [] ""),
          [("id1.json",
            FileData.doc ⟨"id1", "Migrated Conversation", "t1", "t1",
              [⟨"user", "m"⟩], "sp"⟩)]⟩,
         some "id1") ∧
    migrate_old_history ⟨some (LegacyRaw.full [] ""), [("id1.json",
        FileData.doc ⟨"id1", "Migrated Conversation", "t1", "t1",
          [⟨"user", "m"⟩], "sp"⟩)]⟩ "id2" "t2"
      = (⟨some (LegacyRaw.full [] ""), [("id1.json",
          FileData.doc ⟨"id1", "Migrated Conversation", "t1", "t1",
            [⟨"user", "m"⟩], "sp"⟩)]⟩, none) :=
  migration_idempotent (LegacyRaw.full [⟨"user", "m"⟩] "sp") []
    [("id1.json",
      FileData.doc ⟨"id1", "Migrated Conversation", "t1", "t1",
        [⟨"user", "m"⟩], "sp"⟩)]
    "id1" "t1" "id2" "t2" (by decide)

/-- Convenience restatement of `List.find?_cons_of_pos` with the predicate
explicit, to avoid ambiguous unification. -/
theorem find?_cons_pos {α : Type} (p : α → Bool) (a : α) (l : List α)
    (h : p a = true) : List.find? p (a :: l) = some a :=
  List.find?_cons_of_pos l h

/-- Convenience restatement of `List.find?_cons_of_neg` with the predicate
explicit. -/
theorem find?_cons_neg {α : Type} (p : α → Bool) (a : α) (l : List α)
    (h : p a = false) : List.find? p (a :: l) = List.find? p l :=
  List.find?_cons_of_neg l (by simp [h])

/-- A key listed among an association list's keys is found by `find?`. -/
theorem find?_isSome_of_keys {m : List (String × String)} {k : String}
    (h : k ∈ m.map Prod.fst) : (m.find? (fun p => p.1 == k)).isSome = true := by
  induction m with
  | nil => simp at h
  | cons a t ih =>
    simp only [List.map_cons, List.mem_cons] at h
    by_cases hak : (a.1 == k) = true
    · rw [find?_cons_pos (fun p => p.1 == k) a t hak]
      rfl
    · have hak' : (a.1 == k) = false := by simpa using hak
      rw [find?_cons_neg (fun p => p.1 == k) a t hak']
      cases h with
      | inl heq => exact absurd (by simp [heq]) hak
      | inr hmem => exact ih hmem

/-- A key absent from an association list's keys is not found by `find?`. -/
theorem find?_eq_none_of_keys {m : List (String × String)} {k : String}
    (h : ¬ k ∈ m.map Prod.fst) : m.find? (fun p => p.1 == k) = none := by
  rw [List.find?_eq_none]
  intro x hx hpx
  exact h (List.mem_map.mpr ⟨x, hx, by simpa using hpx⟩)

/-- Replacing the value at an existing key makes `find?` return the new
entry. -/
theorem find?_map_replace (m : List (String × String)) (k v : String)
    (h : (m.find? (fun p => p.1 == k)).isSome = true) :
    (m.map (fun p => if p.1 == k then (k, v) else p)).find?
      (fun p => p.1 == k) = some (k, v) := by
  induction m with
  | nil => simp at h
  | cons a t ih =>
    by_cases hak : (a.1 == k) = true
    · simp only [List.map_cons, hak, if_true]
      exact find?_cons_pos (fun p => p.1 == k) (k, v) _ (by simp)
    · have hak' : (a.1 == k) = false := by simpa using hak
      have h' : (t.find? (fun p => p.1 == k)).isSome = true := by
        rw [find?_cons_neg (fun p => p.1 == k) a t hak'] at h
        exact h
      simp only [List.map_cons, hak', Bool.false_eq_true, if_false]
      rw [find?_cons_neg (fun p => p.1 == k) a _ hak']
      exact ih h'

/-- Looking up the key just inserted yields the inserted value, in both the
overwrite and the append branch of `dictInsert`. -/
theorem dictLookup_dictInsert_self (m : List (String × String)) (k v : String) :
    dictLookup (dictInsert m k v) k = some v := by
  unfold dictLookup dictInsert
  by_cases h : (m.find? (fun p => p.1 == k)).isSome = true
  · rw [if_pos h, find?_map_replace m k v h]
    rfl
  · rw [if_neg h]
    have hn : m.find? (fun p => p.1 == k) = none := by
      cases hm : m.find? (fun p => p.1 == k) with
      | none => rfl
      | some x => rw [hm] at h; simp at h
    rw [List.find?_append, hn]
    simp

/-- Key presence is preserved by `dictInsert`. -/
theorem keys_dictInsert (m : List (String × String)) (k' v' k : String)
    (h : k ∈ m.map Prod.fst) : k ∈ (dictInsert m k' v').map Prod.fst := by
  unfold dictInsert
  by_cases hs : (m.find? (fun p => p.1 == k')).isSome = true
  · rw [if_pos hs]
    obtain ⟨x, hx, hxk⟩ := List.mem_map.mp h
    apply List.mem_map.mpr
    refine ⟨if x.1 == k' then (k', v') else x, List.mem_map_of_mem _ hx, ?_⟩
    by_cases hxk' : (x.1 == k') = true
    · have hx1 : x.1 = k' := by simpa using hxk'
      rw [if_pos hxk']
      rw [← hxk, ← hx1]
    · rw [if_neg hxk']
      exact hxk
  · rw [if_neg hs]
    simp only [List.map_append, List.mem_append]
    exact Or.inl h

/-- Key presence in the accumulator survives folding `dictInsert` over any
update list (used for the builtin-overlay of `get_all_personas`). -/
theorem keys_foldl_dictInsert (l : List (String × String)) :
    ∀ acc : List (String × String), ∀ k : String, k ∈ acc.map Prod.fst →
      k ∈ (l.foldl (fun acc p => dictInsert acc p.1 p.2) acc).map Prod.fst := by
  induction l with
  | nil => intro acc k h; exact h
  | cons a t ih =>
    intro acc k h
    exact ih _ k (keys_dictInsert acc a.1 a.2 k h)

/-- C3: the persona save handler rejects — surfacing an error message and
leaving the persona file untouched — whenever the entered name is blank,
the active system prompt is blank, or the name is a builtin persona key; in
particular saving under the builtin name `"Default"` is rejected with the
collision error for every prior persona-file state; otherwise it calls
`add_custom_persona`, which inserts or overwrites the (stripped-name) entry
in the custom mapping and persists it. -/
theorem persona_add_validation (pf : Option PersonaData) (name prompt : String) :
    (isBlank name = true ∨ isBlank prompt = true ∨
        name ∈ PREDEFINED_PERSONAS.map Prod.fst →
      (save_persona_action pf name prompt).1 = pf ∧
      (save_persona_action pf name prompt).2.isSome = true) ∧
    save_persona_action pf "Default" "x"
      = (pf, some "Cannot overwrite predefined personas!") ∧
    (isBlank name = false → isBlank prompt = false →
     ¬ name ∈ PREDEFINED_PERSONAS.map Prod.fst →
      save_persona_action pf name prompt
        = (add_custom_persona pf (pyStrip name) prompt, none) ∧
      dictLookup (load_custom_personas (save_persona_action pf name prompt).1)
        (pyStrip name) = some prompt) := by
  refine ⟨?_, ?_, ?_⟩
  · intro h
    unfold save_persona_action
    rcases h with h | h | h
    · simp [h]
    · by_cases hn : isBlank name = true <;> simp [hn, h]
    · have hf := find?_isSome_of_keys h
      by_cases hn : isBlank name = true <;>
        by_cases hp : isBlank prompt = true <;> simp [hn, hp, hf]
  · have h1 : isBlank "Default" = false := by decide
    have h2 : isBlank "x" = false := by decide
    have h3 : (PREDEFINED_PERSONAS.find?
        (fun p => p.1 == "Default")).isSome = true := by decide
    unfold save_persona_action
    simp [h1, h2, h3]
  · intro hn hp hmem
    have hf : PREDEFINED_PERSONAS.find? (fun p => p.1 == name) = none :=
      find?_eq_none_of_keys hmem
    unfold save_persona_action
    simp [hn, hp, hf, add_custom_persona, load_custom_personas,
      dictLookup_dictInsert_self]

/-- Witness for C3: a blank name is rejected leaving the file unchanged,
and a fresh valid name is inserted and persisted. -/
theorem persona_add_validation_witness :
    ((save_persona_action none " " "p").1 = none ∧
     (save_persona_action none " " "p").2.isSome = true) ∧
    (save_persona_action none "Foo" "bar"
       = (add_custom_persona none "Foo" "bar", none) ∧
     dictLookup (load_custom_personas (save_persona_action none "Foo" "bar").1)
       "Foo" = some "bar") :=
  ⟨(persona_add_validation none " " "p").1 (Or.inl (by decide)),
   (persona_add_validation none "Foo" "bar").2.2 (by decide) (by decide)
     (by decide)⟩

/-- On a parsable custom-persona file containing the name,
`delete_custom_persona` rewrites the file with the entry erased. -/
theorem delete_custom_persona_good (M : List (String × String)) (name : String)
    (h : (M.find? (fun p => p.1 == name)).isSome = true) :
    delete_custom_persona (some (PersonaData.good M)) name
      = some (PersonaData.good (dictErase M name)) := by
  unfold delete_custom_persona
  simp [load_custom_personas, h]

/-- C9: deleting a persona name not present in the custom mapping is a
complete no-op (the persona file is not even rewritten) — builtin names,
which the add invariant keeps out of the custom mapping, can never be
deleted, and the builtin `"Default"` entry survives in the combined
`get_all_personas` view after any such delete; for a name not previously in
the custom mapping, `add_custom_persona` followed by `delete_custom_persona`
returns the custom mapping to its prior state. -/
theorem persona_delete_behavior (pf : Option PersonaData) (name prompt : String)
    (hnot : (load_custom_personas pf).find? (fun p => p.1 == name) = none) :
    delete_custom_persona pf name = pf ∧
    load_custom_personas
        (delete_custom_persona (add_custom_persona pf name prompt) name)
      = load_custom_personas pf ∧
    ((get_all_personas (delete_custom_persona pf name)).find?
      (fun p => p.1 == "Default")).isSome = true := by
  have hdel : delete_custom_persona pf name = pf := by
    unfold delete_custom_persona
    simp [hnot]
  refine ⟨hdel, ?_, ?_⟩
  · have hins : dictInsert (load_custom_personas pf) name prompt
        = load_custom_personas pf ++ [(name, prompt)] := by
      unfold dictInsert
      simp [hnot]
    have hfind : ((load_custom_personas pf ++ [(name, prompt)]).find?
        (fun p => p.1 == name)).isSome = true := by
      rw [List.find?_append, hnot]
      rw [find?_cons_pos (fun p => p.1 == name) (name, prompt) [] (by simp)]
      rfl
    have herase : dictErase (load_custom_personas pf ++ [(name, prompt)]) name
        = load_custom_personas pf := by
      unfold dictErase
      rw [List.filter_append]
      have hm : (load_custom_personas pf).filter (fun p => !(p.1 == name))
          = load_custom_personas pf := by
        apply List.filter_eq_self.mpr
        intro x hx
        have hne := List.find?_eq_none.mp hnot x hx
        simpa using hne
      rw [hm]
      simp
    show load_custom_personas
        (delete_custom_persona
          (some (PersonaData.good
            (dictInsert (load_custom_personas pf) name prompt))) name)
      = load_custom_personas pf
    rw [hins, delete_custom_persona_good _ _ hfind, herase]
    rfl
  · rw [hdel]
    apply find?_isSome_of_keys
    apply keys_foldl_dictInsert
    decide

/-- Witness for C9 at the builtin name `"Default"` against an absent custom
file: the delete is a no-op, add-then-delete restores the mapping, and the
builtin entry survives. -/
theorem persona_delete_behavior_witness :
    delete_custom_persona none "Default" = none ∧
    load_custom_personas
        (delete_custom_persona (add_custom_persona none "Default" "p") "Default")
      = load_custom_personas none ∧
    ((get_all_personas (delete_custom_persona none "Default")).find?
      (fun p => p.1 == "Default")).isSome = true :=
  persona_delete_behavior none "Default" "p" (by decide)

/-- The Python string order is asymmetric. -/
theorem pyLtChars_asymm (a : List Char) :
    ∀ b, pyLtChars a b = true → pyLtChars b a = false := by
  induction a with
  | nil =>
    intro b hb
    cases b with
    | nil => simp [pyLtChars] at hb
    | cons y ys => simp [pyLtChars]
  | cons x xs ih =>
    intro b hb
    cases b with
    | nil => simp [pyLtChars] at hb
    | cons y ys =>
      unfold pyLtChars at hb ⊢
      by_cases hxy : x < y
      · simp [hxy, lt_asymm hxy]
      · by_cases hyx : y < x
        · simp [hxy, hyx] at hb
        · simp only [hxy, hyx, if_false] at hb ⊢
          exact ih ys hb

/-- Asymmetry of the modelled Python string comparison. -/
theorem pyLt_asymm {a b : String} (h : pyLt a b = true) : pyLt b a = false :=
  pyLtChars_asymm a.data b.data h

/-- Inserting into a list sorted by `updated_at` descending keeps it
sorted. -/
theorem insertDesc_sortedDesc (s : ConvSummary) :
    ∀ l, sortedDesc l = true → sortedDesc (insertDesc s l) = true := by
  intro l
  induction l with
  | nil => intro _; simp [insertDesc, sortedDesc]
  | cons t ts ih =>
    intro h
    unfold insertDesc
    by_cases hts : pyLt t.updated_at s.updated_at = true
    · have hst : pyLt s.updated_at t.updated_at = false := pyLt_asymm hts
      simp only [hts, if_true]
      simp [sortedDesc, hst, h]
    · have hts' : pyLt t.updated_at s.updated_at = false := by simpa using hts
      simp only [hts', Bool.false_eq_true, if_false]
      cases ts with
      | nil => simp [insertDesc, sortedDesc, hts']
      | cons u us =>
        have hpair : (!(pyLt t.updated_at u.updated_at)) = true := by
          simp only [sortedDesc, Bool.and_eq_true] at h
          exact h.1
        have h2 : sortedDesc (u :: us) = true := by
          simp only [sortedDesc, Bool.and_eq_true] at h
          exact h.2
        have hrec := ih h2
        by_cases hus : pyLt u.updated_at s.updated_at = true
        · simp only [insertDesc, hus, if_true] at hrec ⊢
          simp only [sortedDesc, Bool.and_eq_true] at hrec ⊢
          exact ⟨by simp [hts'], hrec⟩
        · have hus' : pyLt u.updated_at s.updated_at = false := by simpa using hus
          simp only [insertDesc, hus', Bool.false_eq_true, if_false] at hrec ⊢
          simp only [sortedDesc, Bool.and_eq_true] at hrec ⊢
          exact ⟨by simpa using hpair, hrec⟩

/-- The stable descending sort of `list_conversations` always yields a list
sorted by `updated_at` descending. -/
theorem sortByUpdatedDesc_sorted (l : List ConvSummary) :
    sortedDesc (sortByUpdatedDesc l) = true := by
  have h : ∀ acc, sortedDesc acc = true →
      sortedDesc (l.foldl (fun acc s => insertDesc s acc) acc) = true := by
    induction l with
    | nil => intro acc hacc; exact hacc
    | cons a t ih =>
      intro acc hacc
      exact ih _ (insertDesc_sortedDesc a acc hacc)
  exact h [] rfl

/-- C8: the listing is always sorted by `updated_at` descending, and on a
concrete directory holding three conversations saved with increasing
`updated_at`, one corrupt `.json` document and one non-`.json` file, it
returns exactly the three summaries — id, name, `updated_at`, message
count, and the system-prompt preview built from the first 50 characters
(with a `"..."` marker when longer) — in reverse save order, silently
skipping the corrupt document. -/
theorem list_conversations_spec :
    (∀ fs now, sortedDesc (list_conversations fs now) = true) ∧
    list_conversations
      [("a1.json", FileData.doc ⟨"a1", "one", "t0", "2024-01-01",
          [⟨"user", "hi"⟩], ""⟩),
       ("a2.json", FileData.doc ⟨"a2", "two", "t0", "2024-01-02", [],
          "012345678901234567890123456789012345678901234567890123456789"⟩),
       ("bad.json", FileData.corrupt),
       ("notes.txt", FileData.doc ⟨"x", "x", "t0", "2024-09-09", [], ""⟩),
       ("a3.json", FileData.doc ⟨"a3", "three", "t0", "2024-01-03", [],
          "s"⟩)] "t"
      = [⟨"a3", "three", "2024-01-03", 0, "s"⟩,
         ⟨"a2", "two", "2024-01-02", 0,
          "01234567890123456789012345678901234567890123456789..."⟩,
         ⟨"a1", "one", "2024-01-01", 1, ""⟩] :=
  ⟨fun fs now => sortByUpdatedDesc_sorted (list_entries fs now), by decide⟩

end ChatApp
